import Mathlib

/-!
A verification development for `ApplyRE.py`: a shallow embedding of the
`RegExpression` class (scope classification, broad apply, narrow apply) and of
the `get_regexes` rule-file parser, together with theorems checking the
natural-language specification against this embedding.

Modelling conventions:
* Python strings are Lean `String`s; the Python `str` methods used by the code
  (`lower`, `startswith`, `split`, `strip`, `rstrip`, `in`) are re-implemented
  structurally over `String.data` (lists of characters) so that every
  definition evaluates by `decide`/`rfl`.  `str.lower` is modelled as ASCII
  lowering (it agrees with Python on all ASCII input, which is all the
  configuration keywords involve).
* The compiled regular expression stored by `RegExpression.__init__` is
  modelled by abstracting the regex engine as a substitution function
  `subn : String -> String -> String -> String × Nat` mapping
  (find source, replacement, data) to (new data, number of substitutions),
  exactly the interface `pattern.subn(replacement, data, 0)` presents.
  Concrete evaluations instantiate it with `subnLit`, a left-to-right
  non-overlapping substitute-all for metacharacter-free (literal, non-empty)
  patterns — the only patterns the checked examples use.  Pattern-compilation
  failures of the external engine are not modelled.
* A rule file is modelled as the list of its lines, without trailing newline
  terminators (`readline`'s `"\r\n"` stripping is therefore the identity).
-/

/-- Python `s.startswith(pre)`. -/
def pyStartswith (s pre : String) : Bool := pre.data.isPrefixOf s.data

/-- Python `s.lower()` (ASCII case folding, which agrees on all ASCII text). -/
def pyLower (s : String) : String := ⟨s.data.map Char.toLower⟩

/-- Python `s.rstrip()`: remove trailing whitespace. -/
def pyRstrip (s : String) : String :=
  ⟨(s.data.reverse.dropWhile Char.isWhitespace).reverse⟩

/-- Python `s.strip()`: remove leading and trailing whitespace. -/
def pyStrip (s : String) : String :=
  ⟨((s.data.dropWhile Char.isWhitespace).reverse.dropWhile Char.isWhitespace).reverse⟩

/-- Python `s.split(sep)` for a single-character separator, on char lists:
keeps empty pieces, always returns at least one piece. -/
def splitCharList (sep : Char) : List Char → List (List Char)
  | [] => [[]]
  | c :: rest =>
    match splitCharList sep rest with
    | [] => [[c]]
    | h :: t => if c == sep then [] :: h :: t else (c :: h) :: t

/-- Python `s.split(sep)` for a single-character separator. -/
def pySplit (sep : Char) (s : String) : List String :=
  (splitCharList sep s.data).map fun l => ⟨l⟩

/-! Constants of `ApplyRE.py`. -/

def STOP_IGNORING : String := "\x7d\x7d"
def RECORD_MARKER : String := "lx"
def REGEX_DESC : String := "##"
def BROAD : String := "broad"
def NARROW : String := "sfmval"
def NARROW_NON_SPECIFIC : String := "sfmval"
def DISABLED : String := "disable"

/-- The distinguishable failures raised by the embedded code.  The Python
source raises bare `Exception`s; the constructors here record which `raise`
site fired together with its format arguments, and `Err.message` rebuilds the
exact message text. -/
inductive Err where
  | invalidScope (label : String)
  | wrongModeNarrowRegex
  | wrongModeBroadRegex
  | configNeedsDescription (lineNo : Nat)
  | configIncompleteEntry (lineNo : Nat)
  | configNoEnabledRegexes
deriving Repr, DecidableEq

/-- The message text of each `raise` site in `ApplyRE.py`. -/
def Err.message : Err → String
  | .invalidScope label => "Invalid regex scope label: " ++ label
  | .wrongModeNarrowRegex =>
      "This regex is not intended to be applied broadly to the whole file."
  | .wrongModeBroadRegex =>
      "This regex is intended to be applied broadly to the whole file, NOT narrowly."
  | .configNeedsDescription i =>
      "Config ERROR near line " ++ toString i ++
      ": Each regex needs to begin with at least one description line beginning with ##."
  | .configIncompleteEntry i =>
      "Config ERROR near line " ++ toString i ++
      ": Incomplete set of info for the regular expression at the end of the regex file."
  | .configNoEnabledRegexes =>
      "Config ERROR: Please close the initial comments with a line beginning with " ++
      "\x7d\x7d and after that provide at least one enabled regular expression."

/-- The data of a `RegExpression` object: the find-pattern source (`_findstr`),
the replacement (`_replace`), and the scope flags (`narrow`,
`_narrow_specific`, `_fields`) set by `__init__`.  The compiled pattern
(`_find`) is represented by the engine parameter `subn` of the apply
functions. -/
structure RegExpression where
  findstr : String
  replace : String
  narrow : Bool
  narrow_specific : Bool
  fields : List String
deriving Repr, DecidableEq

/-- `RegExpression.__init__(find_this, replace_with, fields)`: classify the
scope label `fields` by case-insensitive prefix, in source order. -/
def mkRegExpression (find_this replace_with fields : String) :
    Except Err RegExpression :=
  let f := pyLower fields
  if pyStartswith f BROAD then
    .ok { findstr := find_this, replace := replace_with,
          narrow := false, narrow_specific := false, fields := [] }
  else if pyStartswith f (NARROW ++ ":") || pyStartswith f (NARROW ++ " ") then
    .ok { findstr := find_this, replace := replace_with,
          narrow := true, narrow_specific := true,
          fields := (pySplit ' ' fields).drop 1 }
  else if pyStartswith f NARROW_NON_SPECIFIC then
    .ok { findstr := find_this, replace := replace_with,
          narrow := true, narrow_specific := false, fields := [] }
  else
    .error (.invalidScope fields)

/-- One scan step of a literal (metacharacter-free) substitute-all, with fuel
bounding the recursion by the length of the scanned text: at each position,
if the (non-empty) find string occurs, emit the replacement and continue past
the occurrence; otherwise keep one character and continue. -/
def subnFuel (find repl : List Char) : Nat → List Char → List Char × Nat
  | 0, s => (s, 0)
  | _ + 1, [] => ([], 0)
  | fuel + 1, c :: cs =>
    if !find.isEmpty && find.isPrefixOf (c :: cs) then
      let res := subnFuel find repl fuel (cs.drop (find.length - 1))
      (repl ++ res.1, res.2 + 1)
    else
      let res := subnFuel find repl fuel cs
      (c :: res.1, res.2)

/-- The regex engine `pattern.subn(repl, data, 0)` specialised to non-empty
literal find patterns: replace all non-overlapping occurrences left to right
and count them. -/
def subnLit (find repl s : String) : String × Nat :=
  let res := subnFuel find.data repl.data s.data.length s.data
  (⟨res.1⟩, res.2)

/-- `RegExpression.apply(data)`: broad application over the whole data.
`subn` is the engine substitution of the rule's compiled pattern. -/
def RegExpression.apply (subn : String → String → String → String × Nat)
    (r : RegExpression) (data : String) : Except Err (String × Nat) :=
  if r.narrow then .error .wrongModeNarrowRegex
  else .ok (subn r.findstr r.replace data)

/-- The field loop of `RegExpression.apply_narrowly`: walk the (marker, data)
pairs in order; on a pair selected by the scope, run the substitution on the
data portion and replace the pair only when the count is non-zero; markers are
copied through unchanged. -/
def applyNarrowLoop (subn : String → String → String → String × Nat)
    (find repl : String) (specific : Bool) (flds : List String) :
    List (String × String) → List (String × String) × Nat
  | [] => ([], 0)
  | (mkr, fd) :: rest =>
    let res := applyNarrowLoop subn find repl specific flds rest
    if !specific || flds.contains mkr then
      let s := subn find repl fd
      if s.2 != 0 then ((mkr, s.1) :: res.1, s.2 + res.2)
      else ((mkr, fd) :: res.1, res.2)
    else ((mkr, fd) :: res.1, res.2)

/-- `RegExpression.apply_narrowly(record)`: narrow application to an SFM
record given as its list of (marker, field data) pairs. -/
def RegExpression.apply_narrowly (subn : String → String → String → String × Nat)
    (r : RegExpression) (record : List (String × String)) :
    Except Err (List (String × String) × Nat) :=
  if !r.narrow then .error .wrongModeBroadRegex
  else .ok (applyNarrowLoop subn r.findstr r.replace r.narrow_specific r.fields record)

/-! The `get_regexes` parser. -/

/-- The parser state of the line loop of `get_regexes`, with the values the
Python code has necessarily bound in each state (`scope` from state 2 on,
`find_this` in state 3). -/
inductive PState where
  | idle
  | desc
  | haveScope (scope : String)
  | haveFind (scope find_this : String)
deriving Repr, DecidableEq

/-- The state number of the Python variable `state`. -/
def PState.stateNo : PState → Nat
  | .idle => 0
  | .desc => 1
  | .haveScope _ => 2
  | .haveFind _ _ => 3

/-- One iteration of the `for line in data` loop of `get_regexes`: `lineNo` is
the value of `i` for this line. -/
def stepLine (st : PState) (line : String) (lineNo : Nat)
    (regexes : List RegExpression) : Except Err (PState × List RegExpression) :=
  match st with
  | .idle =>
    let l := pyRstrip line
    match l.data with
    | [] => .ok (.idle, regexes)
    | _ :: _ =>
      if pyStartswith l REGEX_DESC then .ok (.desc, regexes)
      else .error (.configNeedsDescription lineNo)
  | .desc =>
    if pyStartswith line REGEX_DESC then .ok (.desc, regexes)
    else .ok (.haveScope line, regexes)
  | .haveScope scope => .ok (.haveFind scope line, regexes)
  | .haveFind scope find_this =>
    if pyStartswith (pyLower scope) (pyLower DISABLED) then .ok (.idle, regexes)
    else
      match mkRegExpression find_this line scope with
      | .error e => .error e
      | .ok r => .ok (.idle, regexes ++ [r])

/-- The whole `for line in data` loop: returns the final state, the final
value of `i`, and the accumulated regex list. -/
def runLines : List String → Nat → PState → List RegExpression →
    Except Err (PState × Nat × List RegExpression)
  | [], i, st, regexes => .ok (st, i, regexes)
  | l :: ls, i, st, regexes =>
    match stepLine st l (i + 1) regexes with
    | .error e => .error e
    | .ok (st2, regexes2) => runLines ls (i + 1) st2 regexes2

/-- The initial `while data` loop of `get_regexes`: consume lines (counting
them in `i`) until one starts with the stop marker, returning the final `i`
and the remaining lines; reaching end of input costs one extra (empty) read. -/
def headerSplit : List String → Nat → Nat × List String
  | [], i => (i + 1, [])
  | l :: ls, i =>
    if pyStartswith l STOP_IGNORING then (i + 1, ls) else headerSplit ls (i + 1)

/-- The tail of `get_regexes` after the record-marker line: run the state
machine on the remaining lines starting the line counter at `i0`, then apply
the two final checks (incomplete last entry; at least one enabled regex). -/
def parseRulesSection (record_marker : String) (data : List String) (i0 : Nat) :
    Except Err (String × List RegExpression) :=
  match runLines data i0 .idle [] with
  | .error e => .error e
  | .ok (st, iEnd, regexes) =>
    if st = PState.idle then
      if regexes.length < 1 then .error .configNoEnabledRegexes
      else .ok (record_marker, regexes)
    else .error (.configIncompleteEntry iEnd)

/-- `get_regexes`, on the rule file given as its list of lines: skip through
the stop-marker line, toss one line, read the record-marker line (value after
its last colon, stripped, when it contains a colon; the default otherwise),
then parse the regex entries. -/
def get_regexes (lines : List String) : Except Err (String × List RegExpression) :=
  let hs := headerSplit lines 0
  let tmp := hs.2.getD 1 ""
  let record_marker :=
    if tmp.data.contains ':' then pyStrip ((pySplit ':' tmp).getLastD "")
    else RECORD_MARKER
  parseRulesSection record_marker (hs.2.drop 2) (hs.1 + 3)

/-! Helper lemmas and spec-side reference definitions. -/

/-- Spec-side description of the per-field action of the narrow apply: on a
pair selected by the scope (every pair when not field-specific; pairs whose
marker is in the field-name list otherwise) whose substitution made at least
one replacement, the content is replaced; every other pair is untouched. -/
def narrowStep (subn : String → String → String → String × Nat)
    (find repl : String) (specific : Bool) (flds : List String)
    (p : String × String) : String × String :=
  if (!specific || flds.contains p.1) && ((subn find repl p.2).2 != 0) then
    (p.1, (subn find repl p.2).1)
  else p

/-- Spec-side description of the per-field replacement count: the engine count
on selected pairs, zero elsewhere. -/
def narrowCount (subn : String → String → String → String × Nat)
    (find repl : String) (specific : Bool) (flds : List String)
    (p : String × String) : Nat :=
  if !specific || flds.contains p.1 then (subn find repl p.2).2 else 0

theorem applyNarrowLoop_eq_map (subn : String → String → String → String × Nat)
    (find repl : String) (specific : Bool) (flds : List String)
    (record : List (String × String)) :
    applyNarrowLoop subn find repl specific flds record =
      (record.map (narrowStep subn find repl specific flds),
       (record.map (narrowCount subn find repl specific flds)).sum) := by
  induction record with
  | nil => rfl
  | cons p rest ih =>
    obtain ⟨mkr, fd⟩ := p
    simp only [applyNarrowLoop, ih, List.map_cons, List.sum_cons, narrowStep, narrowCount]
    split_ifs <;> simp_all

theorem isPrefixOf_cons_exists {a : Char} {pre cs : List Char}
    (h : List.isPrefixOf (a :: pre) cs = true) : ∃ t, cs = a :: t := by
  match cs with
  | [] => exact absurd h (by simp [List.isPrefixOf])
  | c :: t =>
    simp [List.isPrefixOf] at h
    exact ⟨t, by rw [h.1]⟩

theorem headerSplit_append (pre : List String) (stop : String) (tail : List String)
    (i : Nat)
    (hpre : ∀ l ∈ pre, pyStartswith l STOP_IGNORING = false)
    (hstop : pyStartswith stop STOP_IGNORING = true) :
    headerSplit (pre ++ stop :: tail) i = (i + pre.length + 1, tail) := by
  induction pre generalizing i with
  | nil => simp [headerSplit, hstop]
  | cons l pre ih =>
    have h1 := hpre l (by simp)
    have h2 : ∀ x ∈ pre, pyStartswith x STOP_IGNORING = false :=
      fun x hx => hpre x (by simp [hx])
    simp only [List.cons_append, headerSplit, h1, Bool.false_eq_true, if_false,
      List.append_eq, ih (i + 1) h2, List.length_cons, Prod.mk.injEq]
    exact ⟨by omega, trivial⟩

/-- Every prefix test of the classifier against a label whose lowered text
starts with the letter d fails, since all recognized keywords start with
another letter. -/
theorem mk_err_of_head_d (ft rw label : String) (t : List Char)
    (ht : (pyLower label).data = 'd' :: t) :
    mkRegExpression ft rw label = .error (.invalidScope label) := by
  have hb : pyStartswith (pyLower label) BROAD = false := by
    show List.isPrefixOf "broad".data (pyLower label).data = false
    rw [ht]; rfl
  have hc : pyStartswith (pyLower label) (NARROW ++ ":") = false := by
    show List.isPrefixOf ("sfmval" ++ ":" : String).data (pyLower label).data = false
    rw [ht]; rfl
  have hs : pyStartswith (pyLower label) (NARROW ++ " ") = false := by
    show List.isPrefixOf ("sfmval" ++ " " : String).data (pyLower label).data = false
    rw [ht]; rfl
  have hn : pyStartswith (pyLower label) NARROW_NON_SPECIFIC = false := by
    show List.isPrefixOf "sfmval".data (pyLower label).data = false
    rw [ht]; rfl
  simp [mkRegExpression, hb, hc, hs, hn]

/-- Claim C1: for every scope label given to the `RegExpression` constructor,
classification is by case-insensitive prefix in this precedence order: a label
starting with "broad" yields a broad rule; a label starting with "sfmval:" or
"sfmval " yields a narrow field-specific rule whose field-name list is the
space-separated tokens of the label after its first token; a label starting
with "sfmval" with no such qualifier yields a narrow all-fields rule; any
other label fails with the invalid-scope error, whose message contains the
offending label text. -/
theorem scope_classification (label ft rw : String) :
    (pyStartswith (pyLower label) "broad" = true →
      mkRegExpression ft rw label =
        .ok ⟨ft, rw, false, false, []⟩) ∧
    (pyStartswith (pyLower label) "broad" = false →
     (pyStartswith (pyLower label) "sfmval:" = true ∨
      pyStartswith (pyLower label) "sfmval " = true) →
      mkRegExpression ft rw label =
        .ok ⟨ft, rw, true, true, (pySplit ' ' label).drop 1⟩) ∧
    (pyStartswith (pyLower label) "broad" = false →
     pyStartswith (pyLower label) "sfmval:" = false →
     pyStartswith (pyLower label) "sfmval " = false →
     pyStartswith (pyLower label) "sfmval" = true →
      mkRegExpression ft rw label =
        .ok ⟨ft, rw, true, false, []⟩) ∧
    (pyStartswith (pyLower label) "broad" = false →
     pyStartswith (pyLower label) "sfmval:" = false →
     pyStartswith (pyLower label) "sfmval " = false →
     pyStartswith (pyLower label) "sfmval" = false →
      mkRegExpression ft rw label = .error (.invalidScope label) ∧
      (Err.invalidScope label).message = "Invalid regex scope label: " ++ label) := by
  have e1 : BROAD = "broad" := rfl
  have e2 : (NARROW ++ ":" : String) = "sfmval:" := rfl
  have e3 : (NARROW ++ " " : String) = "sfmval " := rfl
  have e4 : NARROW_NON_SPECIFIC = "sfmval" := rfl
  refine ⟨?_, ?_, ?_, ?_⟩
  · intro h
    simp [mkRegExpression, e1, h]
  · intro hb hq
    rcases hq with h | h <;>
      simp [mkRegExpression, e1, e2, e3, hb, h]
  · intro hb h1 h2 h3
    simp [mkRegExpression, e1, e2, e3, e4, hb, h1, h2, h3]
  · intro hb h1 h2 h3
    refine ⟨?_, rfl⟩
    simp [mkRegExpression, e1, e2, e3, e4, hb, h1, h2, h3]

/-- Witness for C1: the label "sfmval: de se" is classified as a narrow
field-specific rule over the fields de and se. -/
theorem scope_classification_witness :
    mkRegExpression "f" "r" "sfmval: de se" =
      .ok ⟨"f", "r", true, true, ["de", "se"]⟩ := by
  have h := (scope_classification "sfmval: de se" "f" "r").2.1
    (by decide) (Or.inl (by decide))
  exact h.trans (by rfl)

/-- Counterexample to claim C2: the label "disabled" does not reach a fourth
recognized category in the constructor; `RegExpression.__init__` raises the
invalid-scope error on it. -/
theorem disabled_label_constructor_rejects :
    mkRegExpression "x" "y" "disabled" = .error (.invalidScope "disabled") := by
  rfl

/-- Claim C2 as amended: for every scope label starting (case-insensitively)
with "disable", the `RegExpression` constructor itself fails with the
invalid-scope error; the disabled category is recognized not by the
constructor but by the parser, whose state-3 step drops such an entry and
returns to the idle state with the rule list unchanged. -/
theorem disabled_label_dropped_at_parse_time (label ft rw line2 : String)
    (lineNo : Nat) (regexes : List RegExpression) (find2 : String)
    (h : pyStartswith (pyLower label) "disable" = true) :
    mkRegExpression ft rw label = .error (.invalidScope label) ∧
    stepLine (.haveFind label find2) line2 lineNo regexes = .ok (.idle, regexes) := by
  obtain ⟨t, ht⟩ := isPrefixOf_cons_exists
    (show List.isPrefixOf ('d' :: "isable".data) (pyLower label).data = true from h)
  refine ⟨mk_err_of_head_d ft rw label t ht, ?_⟩
  have ed : pyLower DISABLED = "disable" := rfl
  simp [stepLine, ed, h]

/-- Witness for C2's amended statement, at the label "DISABLED-xyz". -/
theorem disabled_label_dropped_at_parse_time_witness :
    mkRegExpression "f" "r" "DISABLED-xyz" =
      .error (.invalidScope "DISABLED-xyz") ∧
    stepLine (.haveFind "DISABLED-xyz" "f") "r" 9 [] = .ok (.idle, []) :=
  disabled_label_dropped_at_parse_time "DISABLED-xyz" "f" "r" "r" 9 [] "f" (by decide)

/-- Claim C4: for every broad rule and every input text, the broad apply
performs the engine's global substitute-all of the rule's pattern and
replacement over the whole text and returns the new text paired with the
replacement count. -/
theorem apply_broad_subn (subn : String → String → String → String × Nat)
    (r : RegExpression) (data : String) (h : r.narrow = false) :
    r.apply subn data = .ok (subn r.findstr r.replace data) := by
  simp [RegExpression.apply, h]

/-- Witness for C4: find "cat", replace "dog" on "cat sat" gives "dog sat"
with one replacement. -/
theorem apply_broad_subn_witness :
    RegExpression.apply subnLit ⟨"cat", "dog", false, false, []⟩ "cat sat" =
      .ok ("dog sat", 1) := by
  have h := apply_broad_subn subnLit ⟨"cat", "dog", false, false, []⟩ "cat sat" rfl
  exact h.trans (by rfl)

/-- Claim C5: applying a narrow rule broadly, or a broad rule narrowly, fails
with the corresponding wrong-mode error; no modified text or record is
produced. -/
theorem wrong_mode_fails (subn : String → String → String → String × Nat)
    (r : RegExpression) (data : String) (record : List (String × String)) :
    (r.narrow = true →
      r.apply subn data = .error .wrongModeNarrowRegex) ∧
    (r.narrow = false →
      r.apply_narrowly subn record = .error .wrongModeBroadRegex) := by
  constructor <;> intro h <;>
    simp [RegExpression.apply, RegExpression.apply_narrowly, h]

/-- Witness for C5, on a narrow rule applied broadly and a broad rule applied
narrowly. -/
theorem wrong_mode_fails_witness :
    RegExpression.apply subnLit ⟨"a", "b", true, false, []⟩ "x" =
        .error .wrongModeNarrowRegex ∧
    RegExpression.apply_narrowly subnLit ⟨"a", "b", false, false, []⟩ [("lx", "y")] =
        .error .wrongModeBroadRegex :=
  ⟨(wrong_mode_fails subnLit ⟨"a", "b", true, false, []⟩ "x" [("lx", "y")]).1 rfl,
   (wrong_mode_fails subnLit ⟨"a", "b", false, false, []⟩ "x" [("lx", "y")]).2 rfl⟩

/-- Claim C3: for every narrow rule and every record, the narrow apply acts
field by field in order — substituting only in the content of pairs selected
by the scope (every pair for a non-specific narrow rule, pairs whose marker is
in the field list otherwise), replacing a pair only when at least one
substitution occurred — never alters any marker, and returns the record
together with the total replacement count over selected fields. -/
theorem apply_narrowly_fieldwise (subn : String → String → String → String × Nat)
    (r : RegExpression) (record : List (String × String)) (h : r.narrow = true) :
    r.apply_narrowly subn record =
      .ok (record.map (narrowStep subn r.findstr r.replace r.narrow_specific r.fields),
           (record.map (narrowCount subn r.findstr r.replace r.narrow_specific r.fields)).sum) ∧
    (record.map (narrowStep subn r.findstr r.replace r.narrow_specific r.fields)).map
        Prod.fst = record.map Prod.fst := by
  constructor
  · simp [RegExpression.apply_narrowly, h, applyNarrowLoop_eq_map]
  · have hstep : ∀ p : String × String,
        (narrowStep subn r.findstr r.replace r.narrow_specific r.fields p).1 = p.1 := by
      intro p
      unfold narrowStep
      split <;> rfl
    simp only [List.map_map]
    congr 1
    funext p
    exact hstep p

/-- Witness for C3: a narrow rule specific to the field de with find "eeh" and
replace "EEH", on the record [(lx, "bleeh\n\n"), (de, "foo eeh\n")], changes
only the de content and counts one replacement. -/
theorem apply_narrowly_fieldwise_witness :
    RegExpression.apply_narrowly subnLit ⟨"eeh", "EEH", true, true, ["de"]⟩
        [("lx", "bleeh\n\n"), ("de", "foo eeh\n")] =
      .ok ([("lx", "bleeh\n\n"), ("de", "foo EEH\n")], 1) := by
  have h := (apply_narrowly_fieldwise subnLit ⟨"eeh", "EEH", true, true, ["de"]⟩
    [("lx", "bleeh\n\n"), ("de", "foo eeh\n")] rfl).1
  exact h.trans (by rfl)

/-- Claim C10: for a narrow field-specific rule, the stored field names come
from the original, non-lowercased scope label (here "sfmval: DE" stores the
field name DE), and the membership test of a record pair's marker against the
field list is case-sensitive: in any record, a pair whose marker is the
lowercase de is returned unchanged by the narrow apply, whatever the engine
would substitute. -/
theorem specific_fields_case_sensitive (subn : String → String → String → String × Nat)
    (ft rw fd : String) (pre post : List (String × String)) :
    ∃ r out cnt,
      mkRegExpression ft rw "sfmval: DE" = .ok r ∧
      r.fields = ["DE"] ∧
      r.apply_narrowly subn (pre ++ ("de", fd) :: post) = .ok (out, cnt) ∧
      out[pre.length]? = some ("de", fd) := by
  refine ⟨⟨ft, rw, true, true, ["DE"]⟩,
    (pre ++ ("de", fd) :: post).map (narrowStep subn ft rw true ["DE"]),
    ((pre ++ ("de", fd) :: post).map (narrowCount subn ft rw true ["DE"])).sum,
    rfl, rfl, ?_, ?_⟩
  · simp only [RegExpression.apply_narrowly]
    norm_num [applyNarrowLoop_eq_map]
  · rw [List.map_append, List.map_cons,
      List.getElem?_append_right (by simp)]
    simp only [List.length_map, Nat.sub_self, List.getElem?_cons_zero]
    rfl

/-- Claim C6: a well-formed rule entry (description line, scope line, find
line, replace line) whose scope label starts case-insensitively with "disable"
is dropped by the state machine before any rule is constructed: running the
machine from the idle state over the four entry lines followed by any
remaining lines equals running it over the remaining lines alone, with the
same accumulated rule list and the line counter advanced past the entry. -/
theorem disabled_entry_invisible (desc scope ft rw : String) (rest : List String)
    (i : Nat) (regexes : List RegExpression)
    (hdesc : pyStartswith (pyRstrip desc) "##" = true)
    (hscope : pyStartswith scope "##" = false)
    (hdis : pyStartswith (pyLower scope) "disable" = true) :
    runLines (desc :: scope :: ft :: rw :: rest) i .idle regexes =
      runLines rest (i + 4) .idle regexes := by
  obtain ⟨t, ht⟩ := isPrefixOf_cons_exists
    (show List.isPrefixOf ('#' :: "#".data) (pyRstrip desc).data = true from hdesc)
  have e : REGEX_DESC = "##" := rfl
  have ed : pyLower DISABLED = "disable" := rfl
  simp only [runLines, stepLine, ht, e, ed, hdesc, hscope, hdis, if_true,
    Bool.false_eq_true, if_false]

/-- Witness for C6: a disabled entry in front of another entry leaves the run
on the remaining lines unchanged apart from the line counter. -/
theorem disabled_entry_invisible_witness :
    runLines ["## x", "DISABLED-xyz", "f", "r", "## y"] 0 .idle [] =
      runLines ["## y"] 4 .idle [] :=
  disabled_entry_invisible "## x" "DISABLED-xyz" "f" "r" ["## y"] 0 []
    (by decide) (by decide) (by decide)

/-- Claim C7: once the stop-marker line is found, the parser discards exactly
one following line, then reads exactly one more: if that line contains a
colon, the record-marker name is the text after its last colon with
surrounding whitespace stripped, and otherwise the default name lx is kept;
the regex entries are then parsed from the remaining lines. -/
theorem record_marker_line (pre : List String) (stop l1 l2 : String)
    (tail : List String)
    (hpre : ∀ l ∈ pre, pyStartswith l STOP_IGNORING = false)
    (hstop : pyStartswith stop STOP_IGNORING = true) :
    get_regexes (pre ++ stop :: l1 :: l2 :: tail) =
      parseRulesSection
        (if l2.data.contains ':' then pyStrip ((pySplit ':' l2).getLastD "")
         else RECORD_MARKER)
        tail (pre.length + 4) := by
  have hh := headerSplit_append pre stop (l1 :: l2 :: tail) 0 hpre hstop
  simp only [get_regexes, hh, List.getD, List.drop_succ_cons, List.drop_zero,
    List.get?_cons_succ, List.get?_cons_zero, Option.getD_some]
  have : 0 + pre.length + 1 + 3 = pre.length + 4 := by omega
  rw [this]

/-- Witness for C7: with one comment line before the stop marker, an arbitrary
discarded line, and a record-marker line "marker is: zz", parsing continues on
the rule lines with the record marker zz and the line counter at 5. -/
theorem record_marker_line_witness :
    get_regexes ["intro", "\x7d\x7dx", "w", "marker is: zz", "## d", "broad", "f", "r"] =
      parseRulesSection "zz" ["## d", "broad", "f", "r"] 5 := by
  have h := record_marker_line ["intro"] "\x7d\x7dx" "w" "marker is: zz"
    ["## d", "broad", "f", "r"] (by decide) (by decide)
  exact h.trans (by rfl)

/-- Claim C8: when the line loop of the parser finishes in a state other than
the idle state 0 (an incomplete final entry), `get_regexes` fails with the
incomplete-entry configuration error at the final line count. -/
theorem incomplete_final_entry (lines : List String) (st : PState) (iEnd : Nat)
    (rs : List RegExpression)
    (hrun : runLines ((headerSplit lines 0).2.drop 2) ((headerSplit lines 0).1 + 3)
        .idle [] = .ok (st, iEnd, rs))
    (hst : st ≠ PState.idle) :
    get_regexes lines = .error (.configIncompleteEntry iEnd) := by
  simp only [get_regexes, parseRulesSection, hrun]
  simp [hst]

/-- Witness for C8: a rule file that ends right after a find line leaves the
machine in state 3 and fails with the incomplete-entry error. -/
theorem incomplete_final_entry_witness :
    runLines ["## d", "broad", "findx"] 4 PState.idle [] =
        .ok (PState.haveFind "broad" "findx", 7, []) ∧
    get_regexes ["\x7d\x7d", "", "", "## d", "broad", "findx"] =
      .error (.configIncompleteEntry 7) := by
  refine ⟨by rfl, ?_⟩
  exact incomplete_final_entry ["\x7d\x7d", "", "", "## d", "broad", "findx"]
    (PState.haveFind "broad" "findx") 7 [] (by rfl) (by decide)

/-- Claim C9: when the line loop finishes back in the idle state having
accepted zero rules — all entries disabled, no entries present, or no
stop-marker line at all (so every line was consumed as leading comment) —
`get_regexes` fails with the zero-enabled-rules configuration error rather
than returning an empty rule list. -/
theorem zero_rules_rejected (lines : List String) (iEnd : Nat)
    (hrun : runLines ((headerSplit lines 0).2.drop 2) ((headerSplit lines 0).1 + 3)
        .idle [] = .ok (PState.idle, iEnd, [])) :
    get_regexes lines = .error .configNoEnabledRegexes := by
  simp [get_regexes, parseRulesSection, hrun]

/-- Witness for C9, on a file with no stop-marker line and on a file whose
only entry is disabled. -/
theorem zero_rules_rejected_witness :
    get_regexes ["hello"] = .error .configNoEnabledRegexes ∧
    get_regexes ["\x7d\x7d", "", "", "## d", "DISABLED-x", "f", "r"] =
      .error .configNoEnabledRegexes :=
  ⟨zero_rules_rejected ["hello"] 5 (by rfl),
   zero_rules_rejected ["\x7d\x7d", "", "", "## d", "DISABLED-x", "f", "r"] 8 (by rfl)⟩
